import Mathlib

/-!
Verification development for the whirlwind repository
(src/whirlwind/toolbox.py).

Shallow embedding notes.

* Python ints become Nat. Python floats that the code only ever moves
  through exact operations (copying geotransform coefficients, affine
  pixel-to-geo arithmetic, division by the power of two 1024) are
  modelled as rationals; in the ranges the program handles these
  operations are exact on IEEE doubles, so the rational model agrees
  with the float semantics there.
* The f-string fixed-point formatting (".2f", ".8f") rounds the exact
  value half-to-even, which is what CPython does on the exact binary
  value of a float; rhe below implements round-half-to-even on Q.
* The heapq collaborator keeps a min-at-root binary heap ordered by the
  Python tuple order on (size, path). We represent the heap by the
  ascending sorted list of its entries (same multiset, same minimum at
  the head); heappush becomes an ordered insert, heapreplace becomes an
  ordered insert into the tail, and heap[0] is the head. The spec
  declares the internal order unspecified, and every claim about the
  tracker is a multiset-level statement, so this representation is
  observationally faithful.
* GDAL / osr / pathlib / os.walk / datetime are external collaborators:
  they are modelled as explicit inputs (a Dataset record, a GdalEnv
  record of capability functions, a walk listing, a timestamp string).
* Calls into the raster provider that the claims count are logged in a
  CallLog threaded through the translated functions.
-/

/-! ### Round half to even, and fixed-point decimal rendering -/

/-- Round half to even of the fraction n / d (d positive), computed
with integer division so that it evaluates inside the kernel. -/
def rheND (n : ℤ) (d : ℕ) : ℤ :=
  let f : ℤ := n / (d : ℤ)
  let r2 : ℤ := 2 * (n % (d : ℤ))
  if r2 < (d : ℤ) then f
  else if (d : ℤ) < r2 then f + 1
  else if f % 2 = 0 then f else f + 1

/-- Round a rational to the nearest integer, ties to the even integer.
This is the rounding CPython applies to the exact value of a float when
formatting with a fixed number of fractional digits.
(rhe_eq_floor below restates it through the floor function.) -/
def rhe (q : ℚ) : ℤ := rheND q.num q.den

/-- Kernel-evaluable rational addition (the Batteries instance
operations are irreducible); qadd_eq identifies it with +. -/
def qadd (a b : ℚ) : ℚ := mkRat (a.num * b.den + b.num * a.den) (a.den * b.den)

/-- Kernel-evaluable rational multiplication; qmul_eq identifies it
with *. -/
def qmul (a b : ℚ) : ℚ := mkRat (a.num * b.num) (a.den * b.den)

/-- Kernel-evaluable division of a rational by 1024 (the only division
the byte-format loop performs); qdiv1024_eq identifies it with
division by 1024. -/
def qdiv1024 (a : ℚ) : ℚ := mkRat a.num (a.den * 1024)

/-- Left-pad a string of digits with zeros to the given width. -/
def zeroPad (w : ℕ) (m : ℕ) : String :=
  let s := toString m
  String.mk (List.replicate (w - s.length) '0') ++ s

/-- Rendering of a rational with exactly d fractional digits, as the
Python format spec ".df" renders the exactly-represented float value:
round-half-even at the d-th fractional digit, minus sign taken from the
sign of the input. -/
def pyFixed (d : ℕ) (x : ℚ) : String :=
  let neg := x.num < 0
  let m : ℕ := (rheND ((x.num.natAbs * 10 ^ d : ℕ) : ℤ) x.den).toNat
  (if neg then "-" else "") ++ toString (m / 10 ^ d) ++ "." ++ zeroPad d (m % 10 ^ d)

/-! ### ScanStats and the bounded top-N tracker (toolbox.py lines 44-61) -/

/-- The Python tuple order on heap entries (size, path):
lexicographic on the int size then the string path. -/
def entLE (a b : ℕ × String) : Prop :=
  a.1 < b.1 ∨ (a.1 = b.1 ∧ a.2 ≤ b.2)

instance : DecidableRel entLE := fun a b => by
  unfold entLE; infer_instance

instance : IsTotal (ℕ × String) entLE := by
  constructor
  intro a b
  rcases lt_trichotomy a.1 b.1 with h | h | h
  · exact Or.inl (Or.inl h)
  · rcases le_total a.2 b.2 with h2 | h2
    · exact Or.inl (Or.inr ⟨h, h2⟩)
    · exact Or.inr (Or.inr ⟨h.symm, h2⟩)
  · exact Or.inr (Or.inl h)

instance : IsTrans (ℕ × String) entLE := by
  constructor
  rintro a b c (h | ⟨h, h2⟩) (g | ⟨g, g2⟩)
  · exact Or.inl (h.trans g)
  · exact Or.inl (g ▸ h)
  · exact Or.inl (h ▸ g)
  · exact Or.inr ⟨h.trans g, h2.trans g2⟩

/-- ScanStats dataclass: directory, file and byte counters plus the
bounded collection of the largest (size, path) observations.
The heap list is represented sorted ascending by entLE. -/
structure ScanStats where
  num_dirs : ℕ := 0
  num_files : ℕ := 0
  total_bytes : ℕ := 0
  largest : List (ℕ × String) := []
deriving Repr, DecidableEq

/-- ScanStats.add_file (toolbox.py lines 52-61).
  self.num_files += 1; self.total_bytes += size;
  if top_n > 0: push when below capacity, else compare the new size with
  largest[0][0] (the heap root, i.e. the head of the sorted list) and
  heapreplace only when strictly greater.
The empty-list match arm is unreachable when the length is at least
top_n > 0; Python would raise an IndexError there. -/
def ScanStats.add_file (s : ScanStats) (path : String) (size : ℕ) (top_n : ℕ) :
    ScanStats :=
  let s := { s with num_files := s.num_files + 1, total_bytes := s.total_bytes + size }
  if 0 < top_n then
    let item : ℕ × String := (size, path)
    if s.largest.length < top_n then
      { s with largest := s.largest.orderedInsert entLE item }
    else
      match s.largest with
      | [] => s
      | top :: rest =>
          if top.1 < size then { s with largest := rest.orderedInsert entLE item }
          else s
  else s

/-- One walk entry: a directory path together with the directory entries
(file name, stat result); none models an OSError from Path.stat. -/
abbrev WalkEntry := String × List (String × Option ℕ)

/-- The per-file body of the scan loop (toolbox.py lines 80-86): join
the directory and file name, stat the file, skip on OSError (none),
otherwise feed the size to add_file. -/
def scanFileStep (d : String) (top_n : ℕ) (st : ScanStats) (f : String × Option ℕ) :
    ScanStats :=
  match f.2 with
  | none => st
  | some size => st.add_file (d ++ "/" ++ f.1) size top_n

/-- The per-directory body of the scan loop (toolbox.py lines 76-86):
count the directory, then process its files. -/
def scanDirStep (top_n : ℕ) (stats : ScanStats) (e : WalkEntry) : ScanStats :=
  e.2.foldl (scanFileStep e.1 top_n) { stats with num_dirs := stats.num_dirs + 1 }

/-- scan_directory (toolbox.py lines 63-88), with the os.walk traversal
supplied as an explicit listing and the progress bar (pure presentation)
omitted. -/
def scan_directory (walk : List WalkEntry) (top_n : ℕ) : ScanStats :=
  walk.foldl (scanDirStep top_n) {}

/-! ### format_bytes (toolbox.py lines 112-119) -/

/-- The division loop of format_bytes: walk the unit list
["B","KB","MB","GB","TB","PB"], stopping at the first unit where the
value is below 1024 or at the last unit.  The fuel argument is the
number of units remaining after the current one (5 at the start); the
result is the final value and the number of divisions performed. -/
def fbGo : ℚ → ℕ → ℚ × ℕ
  | v, 0 => (v, 0)
  | v, fuel + 1 =>
      if v < 1024 then (v, 0)
      else
        let p := fbGo (qdiv1024 v) fuel
        (p.1, p.2 + 1)

/-- Unit names, indexed by the number of divisions performed. -/
def fbUnit (j : ℕ) : String := (["B", "KB", "MB", "GB", "TB", "PB"].getD j "PB")

/-- format_bytes (toolbox.py lines 112-119): at unit B the value is the
exact integer n and is printed via int(v); at any later unit the value
is printed with two fractional digits. -/
def format_bytes (n : ℕ) : String :=
  let p := fbGo (n : ℚ) 5
  if p.2 = 0 then toString n ++ " B"
  else pyFixed 2 p.1 ++ " " ++ fbUnit p.2

/-- The numeric quantity displayed by format_bytes: the rounded value
shown, scaled back by the unit multiplier 1024 ^ j. -/
def displayed (n : ℕ) : ℚ :=
  let p := fbGo (n : ℚ) 5
  if p.2 = 0 then (n : ℚ)
  else ((rhe (100 * p.1) : ℚ) / 100) * 1024 ^ p.2

/-! ### parse_aquired_at (toolbox.py lines 190-217) -/

/-- Base name of a path string, as pathlib Path(uri).name: the part
after the last slash. -/
def pathName (s : String) : String :=
  (s.splitOn "/").getLastD ""

/-- Month alternation of the valid regex: 0[1-9]|1[0-2]. -/
def monthPat (c3 c4 : Char) : Prop :=
  (c3 = '0' ∧ '1' ≤ c4 ∧ c4 ≤ '9') ∨ (c3 = '1' ∧ '0' ≤ c4 ∧ c4 ≤ '2')

/-- Day alternation of the valid regex: 0[1-9]|[12]\d|3[01]. -/
def dayPat (c5 c6 : Char) : Prop :=
  (c5 = '0' ∧ '1' ≤ c6 ∧ c6 ≤ '9') ∨ ((c5 = '1' ∨ c5 = '2') ∧ c6.isDigit) ∨
    (c5 = '3' ∧ (c6 = '0' ∨ c6 = '1'))

instance : ∀ c3 c4, Decidable (monthPat c3 c4) := fun c3 c4 => by
  unfold monthPat; infer_instance

instance : ∀ c5 c6, Decidable (dayPat c5 c6) := fun c5 c6 => by
  unfold dayPat; infer_instance

/-- parse_aquired_at (toolbox.py lines 190-217), taking the base name of
the path (Path.name is collaborator behaviour, see pathName).  With
valid = true the anchored prefix regex is
(\d\d)(0[1-9]|1[0-2])(0[1-9]|[12]\d|3[01]); with valid = false it is six
digits.  The \d class is modelled as the ASCII digits.  On a match the
result is "20" ++ yy ++ "-" ++ mm ++ "-" ++ dd, else the empty string. -/
def parse_aquired_at (name : String) (valid : Bool) : String :=
  match name.data with
  | c1 :: c2 :: c3 :: c4 :: c5 :: c6 :: _ =>
      let matched :=
        if valid then
          c1.isDigit ∧ c2.isDigit ∧ monthPat c3 c4 ∧ dayPat c5 c6
        else
          c1.isDigit ∧ c2.isDigit ∧ c3.isDigit ∧ c4.isDigit ∧ c5.isDigit ∧ c6.isDigit
      if matched then
        "20" ++ String.mk [c1, c2] ++ "-" ++ String.mk [c3, c4] ++ "-" ++ String.mk [c5, c6]
      else ""
  | _ => ""

/-! ### The raster provider model -/

/-- One GDAL dataset handle as the pipeline reads it: projection WKT
(empty string when absent), optional affine geotransform
(x0, a, b, y0, c, d), raster sizes, band count, and the band-1 metadata
(the data type name as GetDataTypeName reports it, possibly empty, and
the optional nodata value already rendered to text by the collaborator). -/
structure Dataset where
  projection : String
  geotransform : Option (ℚ × ℚ × ℚ × ℚ × ℚ × ℚ)
  rasterXSize : ℕ
  rasterYSize : ℕ
  rasterCount : ℕ
  band1Dtype : String
  band1NoData : Option String
deriving Repr, DecidableEq

/-- Counts of the shared provider sub-computations the spec talks
about: projection fetches (ds.GetProjection calls), shared raster-shape
queries (get_raster_shape calls) and first-band queries
(ds.GetRasterBand calls). -/
structure CallLog where
  proj : ℕ := 0
  shape : ℕ := 0
  band : ℕ := 0
deriving Repr, DecidableEq

/-- The external GDAL / osr / uuid / filesystem capabilities consumed by
extract_metadata, as explicit functions.
importFromWkt returns none when the WKT cannot be parsed into a usable
spatial reference; building and using a coordinate transformation from
such a reference raises in the bindings, which the footprint model
propagates as an error.  transformPoint maps a source point to the
target CRS with traditional lon/lat axis order on both ends. -/
structure GdalEnv where
  openDS : String → Option Dataset
  authorityOf : String → Option ℕ
  importFromWkt : String → Option ℕ
  transformPoint : ℕ → ℕ → ℚ × ℚ → ℚ × ℚ
  uuid5 : String → String
  statSize : String → Option ℕ

/-- uuid_from_path (toolbox.py lines 120-121): uuid5 of the URI,
delegated to the uuid collaborator. -/
def uuid_from_path (env : GdalEnv) (uri : String) : String := env.uuid5 uri

/-- get_byte_size (toolbox.py lines 128-141): best-effort local stat,
empty string when the path does not resolve. -/
def get_byte_size (env : GdalEnv) (uri : String) : String :=
  match env.statSize uri with
  | some n => toString n
  | none => ""

/-- get_crs (toolbox.py lines 143-145): ds.GetProjection() or "";
counts one projection fetch. -/
def get_crs (ds : Dataset) (log : CallLog) : String × CallLog :=
  (ds.projection, { log with proj := log.proj + 1 })

/-- get_srid (toolbox.py lines 147-165): empty WKT gives "";
otherwise the authority code of the parsed reference, or "" when the
reference exposes none.  Reads only the WKT string, never the dataset. -/
def get_srid (env : GdalEnv) (crs_wkt : String) : String :=
  if crs_wkt = "" then ""
  else
    match env.authorityOf crs_wkt with
    | some code => toString code
    | none => ""

/-- get_raster_shape (toolbox.py lines 167-171): the shared raster-shape
query, returning (pixel_width, pixel_height, band_count) as strings. -/
def get_raster_shape (ds : Dataset) (log : CallLog) :
    (String × String × String) × CallLog :=
  ((toString ds.rasterXSize, toString ds.rasterYSize, toString ds.rasterCount),
    { log with shape := log.shape + 1 })

/-- get_dtype_and_nodata (toolbox.py lines 173-188): when the raster has
no band the pair ("", "") is returned without touching band 1; otherwise
band 1 is fetched (one band query) and its dtype name and nodata
rendering are returned. -/
def get_dtype_and_nodata (ds : Dataset) (log : CallLog) :
    (String × String) × CallLog :=
  if ds.rasterCount < 1 then (("", ""), log)
  else
    let log := { log with band := log.band + 1 }
    let dtype := ds.band1Dtype
    let nodata := match ds.band1NoData with
      | none => ""
      | some s => s
    ((dtype, nodata), log)

/-! ### get_footprint (toolbox.py lines 224-275) -/

/-- The corner pixel-to-geo map of get_footprint:
x = gt0 + px gt1 + py gt2, y = gt3 + px gt4 + py gt5. -/
def pix_to_geo (gt : ℚ × ℚ × ℚ × ℚ × ℚ × ℚ) (px py : ℚ) : ℚ × ℚ :=
  (qadd (qadd gt.1 (qmul px gt.2.1)) (qmul py gt.2.2.1),
   qadd (qadd gt.2.2.2.1 (qmul px gt.2.2.2.2.1)) (qmul py gt.2.2.2.2.2))

/-- get_footprint (toolbox.py lines 224-275).  Returns ok "" when the
geotransform is absent or the projection is empty (the two guarded
cases).  Otherwise it fetches the projection (counted), computes the
closed five-corner ring, reprojects each corner, and renders
SRID=<epsg>;POLYGON((..)) with each coordinate at eight fractional
digits, pairs joined by "," (the separator in the source join).  When
the fetched WKT does not parse into a usable reference the coordinate
transformation raises: modelled as an error result. -/
def get_footprint (env : GdalEnv) (ds : Dataset) (target_epsg : ℕ)
    (log : CallLog) : Except String String × CallLog :=
  match ds.geotransform with
  | none => (.ok "", log)
  | some gt =>
      let log := { log with proj := log.proj + 1 }
      let src_wkt := ds.projection
      if src_wkt = "" then (.ok "", log)
      else
        let width : ℚ := ds.rasterXSize
        let height : ℚ := ds.rasterYSize
        let corners :=
          [pix_to_geo gt 0 0, pix_to_geo gt width 0, pix_to_geo gt width height,
           pix_to_geo gt 0 height, pix_to_geo gt 0 0]
        match env.importFromWkt src_wkt with
        | none => (.error "coordinate transformation creation failed", log)
        | some src =>
            let corners_out := corners.map (env.transformPoint src target_epsg)
            let coords := String.intercalate ","
              (corners_out.map (fun c => pyFixed 8 c.1 ++ " " ++ pyFixed 8 c.2))
            (.ok ("SRID=" ++ toString target_epsg ++ ";POLYGON((" ++ coords ++ "))"), log)

/-! ### extract_metadata (toolbox.py lines 308-368) -/

/-- Failures of extract_metadata: the open failure raised at the top of
the function, or an error propagated out of a collaborator call (the
coordinate transformation inside get_footprint). -/
inductive ExtractErr where
  | openError (uri : String)
  | gdalError (msg : String)
deriving Repr, DecidableEq

/-- extract_metadata (toolbox.py lines 308-368).  Opens the raster
(raising openError when the provider yields no handle) and assembles the
requested columns in source order; the record is the ordered association
list of the inserted keys.  The shared sub-computations are guarded
exactly as in the source: the crs_wkt fetch when crs, srid or footprint
is requested; the raster-shape query when pixel_width, pixel_height or
band_count is requested; the band query when dtype or nodata is
requested.  A footprint error aborts the call. -/
def extract_metadata (env : GdalEnv) (uri : String) (columns : List String)
    (now : String) (log : CallLog) :
    Except ExtractErr (List (String × String)) × CallLog :=
  match env.openDS uri with
  | none => (.error (.openError uri), log)
  | some ds =>
      let seg1 := if "mosaic_id" ∈ columns then [("mosaic_id", uuid_from_path env uri)] else []
      let seg2 := if "uri" ∈ columns then [("uri", uri)] else []
      let seg3 := if "byte_size" ∈ columns then [("byte_size", get_byte_size env uri)] else []
      let c1 :=
        if "crs" ∈ columns ∨ "srid" ∈ columns ∨ "footprint" ∈ columns then get_crs ds log
        else ("", log)
      let crs_wkt := c1.1
      let seg4 := if "crs" ∈ columns then [("crs", crs_wkt)] else []
      let seg5 := if "srid" ∈ columns then [("srid", get_srid env crs_wkt)] else []
      let c2 :=
        if "pixel_width" ∈ columns ∨ "pixel_height" ∈ columns ∨ "band_count" ∈ columns then
          let r := get_raster_shape ds c1.2
          (some r.1, r.2)
        else (none, c1.2)
      let seg6 := match c2.1 with
        | some whb =>
            (if "pixel_width" ∈ columns then [("pixel_width", whb.1)] else []) ++
            (if "pixel_height" ∈ columns then [("pixel_height", whb.2.1)] else []) ++
            (if "band_count" ∈ columns then [("band_count", whb.2.2)] else [])
        | none => []
      let c3 :=
        if "dtype" ∈ columns ∨ "nodata" ∈ columns then
          let r := get_dtype_and_nodata ds c2.2
          (some r.1, r.2)
        else (none, c2.2)
      let seg7 := match c3.1 with
        | some dn =>
            (if "dtype" ∈ columns then [("dtype", dn.1)] else []) ++
            (if "nodata" ∈ columns then [("nodata", dn.2)] else [])
        | none => []
      let fpr :=
        if "footprint" ∈ columns then get_footprint env ds 4326 c3.2
        else (.ok "", c3.2)
      let c4res : Except ExtractErr (List (String × String)) :=
        if "footprint" ∈ columns then
          match fpr.1 with
          | .ok fp => .ok [("footprint", fp)]
          | .error e => .error (ExtractErr.gdalError e)
        else .ok []
      let res :=
        match c4res with
        | .error e => .error e
        | .ok seg8 =>
            let seg9 :=
              if "acquired_at" ∈ columns then
                [("acquired_at", parse_aquired_at (pathName uri) true)]
              else []
            let seg10 := if "uri_etag" ∈ columns then [("uri_etag", "")] else []
            let seg11 := if "created_at" ∈ columns then [("created_at", now)] else []
            .ok (seg1 ++ seg2 ++ seg3 ++ seg4 ++ seg5 ++ seg6 ++ seg7 ++ seg8 ++
              seg9 ++ seg10 ++ seg11)
      (res, fpr.2)

/-- Decidable equality for Except results, used to evaluate concrete
footprint and extraction outcomes. -/
instance {e a : Type} [DecidableEq e] [DecidableEq a] : DecidableEq (Except e a) := fun x y => by
  cases x <;> cases y <;>
    first
      | (apply isFalse; intro h; exact Except.noConfusion h)
      | (rename_i u v
         exact match decEq u v with
           | isTrue huv => isTrue (by rw [huv])
           | isFalse huv => isFalse (by intro h; exact huv (by injection h)))

/-! ### Spec-side definitions and concrete fixtures -/

/-- Walk listing with the failed-stat files removed: what a scan sees
when every fallible stat is dropped up front. -/
def dropFailedFiles (walk : List WalkEntry) : List WalkEntry :=
  walk.map fun e => (e.1, e.2.filter fun f => f.2.isSome)

/-- Feeding a stream of (size, path) observations into a fresh tracker. -/
def runObs (obs : List (ℕ × String)) (top_n : ℕ) : ScanStats :=
  obs.foldl (fun s o => s.add_file o.2 o.1 top_n) {}

/-- Numeric value of an ASCII digit character. -/
def digitVal (c : Char) : ℕ := c.toNat - 48

/-- Modelled from the spec: the acquired_at derivation stated by its
words alone, with no regex alternations.  The result is
"20YY-MM-DD" exactly when the base name starts with six ASCII digits
whose month value lies in [1, 12] and whose day value lies in [1, 31],
and the empty string otherwise. -/
def specAcquiredAt (name : String) : String :=
  match name.data with
  | c1 :: c2 :: c3 :: c4 :: c5 :: c6 :: _ =>
      if c1.isDigit ∧ c2.isDigit ∧ c3.isDigit ∧ c4.isDigit ∧ c5.isDigit ∧ c6.isDigit ∧
          1 ≤ 10 * digitVal c3 + digitVal c4 ∧ 10 * digitVal c3 + digitVal c4 ≤ 12 ∧
          1 ≤ 10 * digitVal c5 + digitVal c6 ∧ 10 * digitVal c5 + digitVal c6 ≤ 31 then
        "20" ++ String.mk [c1, c2] ++ "-" ++ String.mk [c3, c4] ++ "-" ++ String.mk [c5, c6]
      else ""
  | _ => ""

/-- A small 2 by 2 dataset with an identity-friendly geotransform,
used for concrete evaluations. -/
def dsDemo : Dataset :=
  { projection := "WGS84", geotransform := some (0, 1, 0, 0, 0, -1),
    rasterXSize := 2, rasterYSize := 2, rasterCount := 1,
    band1Dtype := "Byte", band1NoData := none }

/-- The demo dataset with an unparseable non-empty projection. -/
def dsBad : Dataset := { dsDemo with projection := "garbage" }

/-- The demo dataset lacking a geotransform. -/
def dsNoGt : Dataset := { dsDemo with geotransform := none }

/-- A concrete collaborator environment: it opens f.tif onto the demo
dataset, parses only the WGS84 WKT, and reprojects by the identity
(source CRS equal to the target CRS). -/
def envDemo : GdalEnv :=
  { openDS := fun u => if u = "f.tif" then some dsDemo else none,
    authorityOf := fun w => if w = "WGS84" then some 4326 else none,
    importFromWkt := fun w => if w = "WGS84" then some 0 else none,
    transformPoint := fun _ _ p => p,
    uuid5 := fun _ => "00000000-0000-0000-0000-000000000000",
    statSize := fun _ => none }

/-- A scan input of three directories and five files of sizes
10, 20, 30, 5, 100, all of whose stats succeed. -/
def demoWalk : List WalkEntry :=
  [("root", [("a.bin", some 10), ("b.bin", some 20)]),
   ("root/s1", [("c.bin", some 30), ("d.bin", some 5)]),
   ("root/s2", [("e.bin", some 100)])]

/-! ### Supporting lemmas -/

theorem char_le_iff (a b : Char) : a ≤ b ↔ a.toNat ≤ b.toNat := by
  rw [Char.le_def]
  exact ⟨fun h => h, fun h => h⟩

theorem char_eq_iff (a b : Char) : a = b ↔ a.toNat = b.toNat := by
  constructor
  · rintro rfl; rfl
  · intro h
    apply Char.eq_of_val_eq
    exact UInt32.ext h

theorem isDigit_iff (c : Char) : c.isDigit = true ↔ 48 ≤ c.toNat ∧ c.toNat ≤ 57 := by
  unfold Char.isDigit
  simp only [Bool.and_eq_true, decide_eq_true_eq, ge_iff_le]
  rw [UInt32.le_def, UInt32.le_def]
  exact Iff.rfl

theorem month_day_equiv (c3 c4 c5 c6 : Char) :
    (monthPat c3 c4 ∧ dayPat c5 c6) ↔
      (c3.isDigit ∧ c4.isDigit ∧ c5.isDigit ∧ c6.isDigit ∧
       1 ≤ 10 * digitVal c3 + digitVal c4 ∧ 10 * digitVal c3 + digitVal c4 ≤ 12 ∧
       1 ≤ 10 * digitVal c5 + digitVal c6 ∧ 10 * digitVal c5 + digitVal c6 ≤ 31) := by
  unfold monthPat dayPat digitVal
  simp only [isDigit_iff, char_le_iff, char_eq_iff]
  have e0 : ('0').toNat = 48 := rfl
  have e1 : ('1').toNat = 49 := rfl
  have e2 : ('2').toNat = 50 := rfl
  have e3 : ('3').toNat = 51 := rfl
  have e9 : ('9').toNat = 57 := rfl
  rw [e0, e1, e2, e3, e9]
  omega

/-! ### C4: the acquired_at derivation -/

/-- C4: for every base name, parse_aquired_at with valid = true yields
"20YY-MM-DD" exactly when the name starts with a six-digit prefix whose
month lies in [01, 12] and whose day lies in [01, 31] (the word-level
specAcquiredAt), and the empty string otherwise; in particular
"240119_denver.tif" gives "2024-01-19", "abc.tif" gives "", and
"241301_x.tif" gives "" since month 13 is invalid. -/
theorem acquired_at_matches_spec :
    (∀ name : String, parse_aquired_at name true = specAcquiredAt name)
    ∧ parse_aquired_at "240119_denver.tif" true = "2024-01-19"
    ∧ parse_aquired_at "abc.tif" true = ""
    ∧ parse_aquired_at "241301_x.tif" true = "" := by
  refine ⟨?_, by decide, by decide, by decide⟩
  intro name
  rcases hd : name.data with _ | ⟨c1, _ | ⟨c2, _ | ⟨c3, _ | ⟨c4, _ | ⟨c5, _ | ⟨c6, rest⟩⟩⟩⟩⟩⟩ <;>
    simp only [parse_aquired_at, specAcquiredAt, hd, if_true]
  have h := month_day_equiv c3 c4 c5 c6
  apply if_congr _ rfl rfl
  constructor
  · rintro ⟨h1, h2, h3, h4⟩
    have h5 := h.mp ⟨h3, h4⟩
    tauto
  · rintro ⟨h1, h2, h3, h4, h5, h6, h7, h8, h9, h10⟩
    have h11 := h.mpr ⟨h3, h4, h5, h6, h7, h8, h9, h10⟩
    tauto

/-! ### C5: failed stats are skipped -/

theorem filesFold_filter (d : String) (top_n : ℕ) (files : List (String × Option ℕ)) :
    ∀ st : ScanStats,
      files.foldl (scanFileStep d top_n) st =
        (files.filter fun f => f.2.isSome).foldl (scanFileStep d top_n) st := by
  induction files with
  | nil => intro st; rfl
  | cons f fs ih =>
      intro st
      cases hf : f.2 with
      | none =>
          simp only [List.foldl_cons, List.filter_cons, hf, Option.isSome_none,
            Bool.false_eq_true, if_false, scanFileStep]
          exact ih st
      | some v =>
          simp only [List.foldl_cons, List.filter_cons, hf, Option.isSome_some, if_true]
          exact ih _

/-- C5: a file whose stat fails contributes nothing to the scan (the
scan of any walk equals the scan of the walk with the failed-stat files
removed), and the concrete tree of 3 directories and 5 files of sizes
10, 20, 30, 5, 100 scanned with top_n = 2 retains the sizes 30 and 100
with num_files = 5 and total_bytes = 165. -/
theorem scan_skips_failed_stats :
    (∀ (walk : List WalkEntry) (top_n : ℕ),
      scan_directory walk top_n = scan_directory (dropFailedFiles walk) top_n)
    ∧ (scan_directory demoWalk 2).largest.map Prod.fst = [30, 100]
    ∧ (scan_directory demoWalk 2).num_files = 5
    ∧ (scan_directory demoWalk 2).total_bytes = 165
    ∧ (scan_directory demoWalk 2).num_dirs = 3 := by
  refine ⟨?_, by decide, by decide, by decide, by decide⟩
  intro walk top_n
  unfold scan_directory dropFailedFiles
  rw [List.foldl_map]
  apply List.foldl_ext
  intro stats e _
  unfold scanDirStep
  exact filesFold_filter e.1 top_n e.2 _

/-! ### Tracker lemmas -/

theorem add_file_counters (s : ScanStats) (path : String) (size top_n : ℕ) :
    (s.add_file path size top_n).num_files = s.num_files + 1 ∧
    (s.add_file path size top_n).total_bytes = s.total_bytes + size ∧
    (s.add_file path size top_n).num_dirs = s.num_dirs := by
  unfold ScanStats.add_file
  dsimp only
  repeat' split
  all_goals exact ⟨rfl, rfl, rfl⟩

theorem add_file_length (s : ScanStats) (path : String) (size top_n : ℕ) :
    (s.add_file path size top_n).largest.length =
      if s.largest.length < top_n ∧ 0 < top_n then s.largest.length + 1
      else s.largest.length := by
  unfold ScanStats.add_file
  dsimp only
  repeat' split
  all_goals simp_all [List.orderedInsert_length]
  all_goals omega

theorem add_file_zero_largest (s : ScanStats) (path : String) (size : ℕ) :
    (s.add_file path size 0).largest = s.largest := by
  unfold ScanStats.add_file
  simp

theorem runObs_go_length (top_n : ℕ) (obs : List (ℕ × String)) :
    ∀ s : ScanStats, s.largest.length ≤ top_n →
      (obs.foldl (fun s o => s.add_file o.2 o.1 top_n) s).largest.length =
        min (s.largest.length + obs.length) top_n := by
  induction obs with
  | nil => intro s h; simpa using (min_eq_left h).symm
  | cons o os ih =>
      intro s h
      rw [List.foldl_cons]
      have hl := add_file_length s o.2 o.1 top_n
      have hle : (s.add_file o.2 o.1 top_n).largest.length ≤ top_n := by
        split at hl <;> omega
      rw [ih _ hle]
      split at hl <;> (rw [hl]; simp only [List.length_cons]; omega)

theorem runObs_go_counters (top_n : ℕ) (obs : List (ℕ × String)) :
    ∀ s : ScanStats,
      (obs.foldl (fun s o => s.add_file o.2 o.1 top_n) s).num_files =
        s.num_files + obs.length ∧
      (obs.foldl (fun s o => s.add_file o.2 o.1 top_n) s).total_bytes =
        s.total_bytes + (obs.map Prod.fst).sum := by
  induction obs with
  | nil => intro s; simp
  | cons o os ih =>
      intro s
      rw [List.foldl_cons]
      obtain ⟨h1, h2⟩ := ih (s.add_file o.2 o.1 top_n)
      obtain ⟨g1, g2, -⟩ := add_file_counters s o.2 o.1 top_n
      constructor
      · rw [h1, g1]; simp only [List.length_cons]; omega
      · rw [h2, g2]; simp only [List.map_cons, List.sum_cons]; omega

theorem runObs_go_zero (obs : List (ℕ × String)) :
    ∀ s : ScanStats,
      (obs.foldl (fun s o => s.add_file o.2 o.1 0) s).largest = s.largest := by
  induction obs with
  | nil => intro s; rfl
  | cons o os ih =>
      intro s
      rw [List.foldl_cons, ih, add_file_zero_largest]

/-! ### C8: capacity invariant and inert zero-capacity tracker -/

/-- C8: each observe call preserves len largest at most top_n; a fresh
tracker fed k observations holds exactly min k top_n entries; with
capacity zero the collection stays empty while num_files and
total_bytes still accumulate every observation. -/
theorem tracker_capacity_invariant :
    (∀ (s : ScanStats) (path : String) (size top_n : ℕ),
        s.largest.length ≤ top_n →
        (s.add_file path size top_n).largest.length ≤ top_n)
    ∧ (∀ (obs : List (ℕ × String)) (top_n : ℕ),
        (runObs obs top_n).largest.length = min obs.length top_n)
    ∧ (∀ obs : List (ℕ × String),
        (runObs obs 0).largest = []
        ∧ (runObs obs 0).num_files = obs.length
        ∧ (runObs obs 0).total_bytes = (obs.map Prod.fst).sum) := by
  refine ⟨?_, ?_, ?_⟩
  · intro s path size top_n h
    have hl := add_file_length s path size top_n
    split at hl <;> omega
  · intro obs top_n
    have h := runObs_go_length top_n obs {} (by simp)
    simpa [runObs] using h
  · intro obs
    refine ⟨runObs_go_zero obs {}, ?_, ?_⟩
    · have := (runObs_go_counters 0 obs {}).1
      simpa [runObs] using this
    · have := (runObs_go_counters 0 obs {}).2
      simpa [runObs] using this

/-- Closed instance of the capacity invariant at a concrete input. -/
theorem tracker_capacity_invariant_witness :
    (({ largest := [(3, "a")] } : ScanStats).add_file "b" 9 1).largest.length ≤ 1 :=
  tracker_capacity_invariant.1 { largest := [(3, "a")] } "b" 9 1 (by decide)

/-! ### C1: insertion and eviction policy of the tracker -/

/-- C1: below capacity a new observation is always inserted; at
capacity (top_n > 0) the head of the sorted heap list is an entry of
minimum held size, and the new entry is inserted with that minimum
evicted exactly when the new size is strictly greater than the minimum
held size, while a tie or smaller size leaves the held entries
unchanged. -/
theorem add_file_eviction_policy (s : ScanStats) (path : String)
    (size top_n : ℕ) (hs : s.largest.Sorted entLE) :
    (0 < top_n → s.largest.length < top_n →
      ((s.add_file path size top_n).largest : Multiset (ℕ × String)) =
        (size, path) ::ₘ (s.largest : Multiset (ℕ × String)))
    ∧ (∀ top rest, s.largest = top :: rest → s.largest.length = top_n →
        (∀ e ∈ s.largest, top.1 ≤ e.1)
        ∧ (top.1 < size →
            ((s.add_file path size top_n).largest : Multiset (ℕ × String)) =
              (size, path) ::ₘ (rest : Multiset (ℕ × String)))
        ∧ (size ≤ top.1 → (s.add_file path size top_n).largest = s.largest)) := by
  constructor
  · intro ht hlen
    unfold ScanStats.add_file
    dsimp only
    rw [if_pos ht, if_pos hlen]
    exact Multiset.coe_eq_coe.mpr (List.perm_orderedInsert entLE _ _)
  · intro top rest heq hcap
    have ht : 0 < top_n := by rw [← hcap, heq]; simp
    have hnotlt : ¬ s.largest.length < top_n := by omega
    refine ⟨?_, ?_, ?_⟩
    · intro e he
      rw [heq] at hs he
      rcases List.mem_cons.mp he with rfl | he2
      · exact le_refl _
      · rcases (List.sorted_cons.mp hs).1 e he2 with h | ⟨h, -⟩
        · exact le_of_lt h
        · exact le_of_eq h
    · intro hlt
      unfold ScanStats.add_file
      dsimp only
      rw [if_pos ht, if_neg hnotlt, heq]
      dsimp only
      rw [if_pos hlt]
      exact Multiset.coe_eq_coe.mpr (List.perm_orderedInsert entLE _ _)
    · intro hle
      unfold ScanStats.add_file
      dsimp only
      rw [if_pos ht, if_neg hnotlt, heq]
      dsimp only
      rw [if_neg (not_lt.mpr hle)]

/-- Closed instance of the eviction policy: a tracker at capacity 2
holding sizes 5 and 7 evicts the size-5 entry for a new size-9 file. -/
theorem add_file_eviction_policy_witness :
    ((({ largest := [(5, "a"), (7, "b")] } : ScanStats).add_file "c" 9 2).largest :
        Multiset (ℕ × String)) = (9, "c") ::ₘ ([(7, "b")] : List (ℕ × String)) :=
  ((add_file_eviction_policy { largest := [(5, "a"), (7, "b")] } "c" 9 2
      (by simp [List.sorted_cons, entLE])).2 (5, "a") [(7, "b")] rfl rfl).2.1
    (by omega)

/-! ### C10: zero-band rasters degrade dtype and nodata -/

theorem get_dtype_and_nodata_zero (ds : Dataset) (log : CallLog)
    (h : ds.rasterCount < 1) :
    get_dtype_and_nodata ds log = (("", ""), log) := by
  unfold get_dtype_and_nodata
  rw [if_pos h]

/-- C10: a raster with no band yields ("", "") from
get_dtype_and_nodata without any band-1 query (the call log is
untouched); band 1 is queried exactly when at least one band exists;
and extract on a zero-band raster serves empty dtype and nodata columns
instead of failing. -/
theorem zero_band_dtype_nodata :
    (∀ (ds : Dataset) (log : CallLog), ds.rasterCount < 1 →
        get_dtype_and_nodata ds log = (("", ""), log))
    ∧ (∀ (ds : Dataset) (log : CallLog),
        (get_dtype_and_nodata ds log).2.band =
          log.band + (if ds.rasterCount < 1 then 0 else 1))
    ∧ (∀ (env : GdalEnv) (uri : String) (ds : Dataset) (now : String) (log : CallLog),
        env.openDS uri = some ds → ds.rasterCount = 0 →
        (extract_metadata env uri ["dtype", "nodata"] now log).1 =
          .ok [("dtype", ""), ("nodata", "")]) := by
  refine ⟨fun ds log h => get_dtype_and_nodata_zero ds log h, ?_, ?_⟩
  · intro ds log
    unfold get_dtype_and_nodata
    split
    · simp
    · simp
  · intro env uri ds now log hopen hc
    unfold extract_metadata
    rw [hopen]
    have hz := get_dtype_and_nodata_zero ds log (by omega)
    simp +decide [hz]

/-- Closed instance: the demo dataset stripped to zero bands yields
empty dtype and nodata without a band query. -/
theorem zero_band_dtype_nodata_witness :
    get_dtype_and_nodata { dsDemo with rasterCount := 0 } {} = (("", ""), {}) :=
  zero_band_dtype_nodata.1 { dsDemo with rasterCount := 0 } {} (by decide)

/-! ### C7: OpenError characterization -/

theorem extract_no_openError_of_some (env : GdalEnv) (uri : String)
    (columns : List String) (now : String) (log : CallLog) (ds : Dataset)
    (hopen : env.openDS uri = some ds) :
    ∀ u, (extract_metadata env uri columns now log).1 ≠ .error (.openError u) := by
  intro u
  unfold extract_metadata
  rw [hopen]
  dsimp only
  split
  · rename_i e heq
    split at heq
    · split at heq
      · simp_all
      · simp_all
        rw [← heq]
        simp
    · simp_all
  · simp

/-- C7: extract fails with the open error exactly when the provider
yields no handle for the uri; in that case no record is produced; and
when the open succeeds the call never fails with an open error (for any
uri payload). -/
theorem extract_openerror_iff :
    ∀ (env : GdalEnv) (uri : String) (columns : List String) (now : String)
      (log : CallLog),
      ((extract_metadata env uri columns now log).1 = .error (.openError uri) ↔
        env.openDS uri = none)
      ∧ (env.openDS uri = none →
          ∀ out, (extract_metadata env uri columns now log).1 ≠ .ok out)
      ∧ (∀ ds, env.openDS uri = some ds →
          ∀ u, (extract_metadata env uri columns now log).1 ≠
            .error (.openError u)) := by
  intro env uri columns now log
  refine ⟨⟨?_, ?_⟩, ?_, ?_⟩
  · intro h
    cases hopen : env.openDS uri with
    | none => rfl
    | some ds =>
        exact absurd h (extract_no_openError_of_some env uri columns now log ds hopen uri)
  · intro hnone
    unfold extract_metadata
    rw [hnone]
  · intro hnone out
    unfold extract_metadata
    rw [hnone]
    simp
  · intro ds hopen u
    exact extract_no_openError_of_some env uri columns now log ds hopen u

/-- Closed instance: the demo environment cannot open missing.tif, so
extract fails with the open error there. -/
theorem extract_openerror_iff_witness :
    (extract_metadata envDemo "missing.tif" ["uri"] "now" {}).1 =
      .error (.openError "missing.tif") :=
  (extract_openerror_iff envDemo "missing.tif" ["uri"] "now" {}).1.mpr (by decide)

/-! ### C3: shared sub-computations and call counts -/

theorem get_crs_log (ds : Dataset) (log : CallLog) :
    (get_crs ds log).2 = { log with proj := log.proj + 1 } := rfl

theorem get_raster_shape_log (ds : Dataset) (log : CallLog) :
    (get_raster_shape ds log).2 = { log with shape := log.shape + 1 } := rfl

theorem get_dtype_and_nodata_log (ds : Dataset) (log : CallLog) :
    (get_dtype_and_nodata ds log).2 =
      { log with band := log.band + if 1 ≤ ds.rasterCount then 1 else 0 } := by
  unfold get_dtype_and_nodata
  split
  · rename_i h
    have h2 : ¬ 1 ≤ ds.rasterCount := by omega
    simp [h2]
  · rename_i h
    have h2 : 1 ≤ ds.rasterCount := by omega
    simp [h2]

theorem get_footprint_log (env : GdalEnv) (ds : Dataset) (t : ℕ) (log : CallLog) :
    (get_footprint env ds t log).2 =
      { log with proj := log.proj + if ds.geotransform.isSome then 1 else 0 } := by
  unfold get_footprint
  split
  · rename_i hgt
    simp [hgt]
  · rename_i gt hgt
    simp only [hgt, Option.isSome_some, if_true]
    split
    · rfl
    · split <;> rfl

set_option maxHeartbeats 1000000 in
theorem extract_metadata_log (env : GdalEnv) (uri : String) (ds : Dataset)
    (columns : List String) (now : String) (log : CallLog)
    (hopen : env.openDS uri = some ds) :
    (extract_metadata env uri columns now log).2 =
      { proj := log.proj
          + (if "crs" ∈ columns ∨ "srid" ∈ columns ∨ "footprint" ∈ columns then 1 else 0)
          + (if "footprint" ∈ columns then (if ds.geotransform.isSome then 1 else 0) else 0),
        shape := log.shape
          + (if "pixel_width" ∈ columns ∨ "pixel_height" ∈ columns ∨ "band_count" ∈ columns
             then 1 else 0),
        band := log.band
          + (if ("dtype" ∈ columns ∨ "nodata" ∈ columns) ∧ 1 ≤ ds.rasterCount
             then 1 else 0) } := by
  unfold extract_metadata
  rw [hopen]
  dsimp only
  simp only [apply_ite Prod.snd, get_footprint_log, get_dtype_and_nodata_log,
    get_crs_log, get_raster_shape_log]
  split_ifs <;> simp_all

/-- C3 (amended): on a successful open, the shared raster-shape query
and the first-band query each run at most once per extract call and the
projection at most twice; with footprint not requested the projection
too is fetched at most once; each sub-computation runs only when one of
its dependent columns is requested; and extract with columns = [uri]
performs no provider sub-computation at all.  (The original claim of at
most one projection fetch fails when footprint is requested: the
footprint computation re-fetches the projection.) -/
theorem extract_shared_subcomputations :
    (∀ (env : GdalEnv) (uri : String) (ds : Dataset) (columns : List String)
        (now : String),
      env.openDS uri = some ds →
      ((extract_metadata env uri columns now {}).2.shape ≤ 1
        ∧ (extract_metadata env uri columns now {}).2.band ≤ 1
        ∧ (extract_metadata env uri columns now {}).2.proj ≤ 2
        ∧ ("footprint" ∉ columns →
            (extract_metadata env uri columns now {}).2.proj ≤ 1)
        ∧ ((extract_metadata env uri columns now {}).2.proj = 0 ∨
            ("crs" ∈ columns ∨ "srid" ∈ columns ∨ "footprint" ∈ columns))
        ∧ ((extract_metadata env uri columns now {}).2.shape = 0 ∨
            ("pixel_width" ∈ columns ∨ "pixel_height" ∈ columns ∨
              "band_count" ∈ columns))
        ∧ ((extract_metadata env uri columns now {}).2.band = 0 ∨
            ("dtype" ∈ columns ∨ "nodata" ∈ columns))))
    ∧ (∀ (env : GdalEnv) (uri : String) (now : String),
        (extract_metadata env uri ["uri"] now {}).2 = {}) := by
  constructor
  · intro env uri ds columns now hopen
    rw [extract_metadata_log env uri ds columns now {} hopen]
    refine ⟨?_, ?_, ?_, ?_, ?_, ?_, ?_⟩ <;> split_ifs <;> simp_all
  · intro env uri now
    cases hopen : env.openDS uri with
    | none =>
        unfold extract_metadata
        rw [hopen]
    | some ds =>
        rw [extract_metadata_log env uri ds ["uri"] now {} hopen]
        simp +decide

/-- C3 counterexample: with only the footprint column requested on a
dataset holding a geotransform, the projection is fetched twice in one
extract call. -/
theorem extract_projection_double_fetch :
    (extract_metadata envDemo "f.tif" ["footprint"] "now" {}).2.proj = 2 := by
  decide

/-- Closed instance of the amended call-count bounds at a concrete
input. -/
theorem extract_shared_subcomputations_witness :
    (extract_metadata envDemo "f.tif" ["crs", "srid", "pixel_width"] "now" {}).2.shape ≤ 1 :=
  (extract_shared_subcomputations.1 envDemo "f.tif" dsDemo
    ["crs", "srid", "pixel_width"] "now" (by decide)).1

/-! ### C2: footprint ring and rendering -/

/-- C2 (amended): when the geotransform is present and the non-empty
source CRS parses, get_footprint returns
SRID=<epsg>;POLYGON((..)) over exactly the five reprojected ring
corners (0,0), (W,0), (W,H), (0,H), (0,0) mapped by
x = x0 + px a + py b, y = y0 + px c + py d, each coordinate rendered
with exactly eight fractional digits and the pairs joined by a bare
comma with no trailing comma.  (The original claim of a comma-space
separator fails: the source joins with a comma only.) -/
theorem footprint_ring_format (env : GdalEnv) (ds : Dataset) (target : ℕ)
    (log : CallLog) (gt : ℚ × ℚ × ℚ × ℚ × ℚ × ℚ) (src : ℕ)
    (hgt : ds.geotransform = some gt) (hp : ds.projection ≠ "")
    (hsrc : env.importFromWkt ds.projection = some src) :
    (get_footprint env ds target log).1 =
      .ok ("SRID=" ++ toString target ++ ";POLYGON((" ++
        String.intercalate ","
          (([pix_to_geo gt 0 0, pix_to_geo gt (ds.rasterXSize : ℚ) 0,
             pix_to_geo gt (ds.rasterXSize : ℚ) (ds.rasterYSize : ℚ),
             pix_to_geo gt 0 (ds.rasterYSize : ℚ), pix_to_geo gt 0 0].map
              (env.transformPoint src target)).map
            (fun c => pyFixed 8 c.1 ++ " " ++ pyFixed 8 c.2)) ++ "))") := by
  unfold get_footprint
  rw [hgt]
  dsimp only
  rw [if_neg hp, hsrc]

/-- C2 counterexample: at the concrete 2 by 2 identity-reprojection
raster from the claim, the produced polygon joins pairs with a bare
comma; the comma-space rendering the claim asserts is not produced. -/
theorem footprint_separator_counterexample :
    (get_footprint envDemo dsDemo 4326 {}).1 =
      .ok ("SRID=4326;POLYGON((0.00000000 0.00000000,2.00000000 0.00000000," ++
        "2.00000000 -2.00000000,0.00000000 -2.00000000,0.00000000 0.00000000))")
    ∧ (get_footprint envDemo dsDemo 4326 {}).1 ≠
      .ok ("SRID=4326;POLYGON((0.00000000 0.00000000, 2.00000000 0.00000000, " ++
        "2.00000000 -2.00000000, 0.00000000 -2.00000000, 0.00000000 0.00000000))") := by
  constructor
  · decide
  · decide

/-- Closed instance of the amended footprint rendering at the concrete
2 by 2 identity-reprojection raster. -/
theorem footprint_ring_format_witness :
    (get_footprint envDemo dsDemo 4326 {}).1 =
      .ok ("SRID=" ++ toString 4326 ++ ";POLYGON((" ++
        String.intercalate ","
          (([pix_to_geo (0, 1, 0, 0, 0, -1) 0 0,
             pix_to_geo (0, 1, 0, 0, 0, -1) (dsDemo.rasterXSize : ℚ) 0,
             pix_to_geo (0, 1, 0, 0, 0, -1) (dsDemo.rasterXSize : ℚ) (dsDemo.rasterYSize : ℚ),
             pix_to_geo (0, 1, 0, 0, 0, -1) 0 (dsDemo.rasterYSize : ℚ),
             pix_to_geo (0, 1, 0, 0, 0, -1) 0 0].map
              (envDemo.transformPoint 0 4326)).map
            (fun c => pyFixed 8 c.1 ++ " " ++ pyFixed 8 c.2)) ++ "))") :=
  footprint_ring_format envDemo dsDemo 4326 {} (0, 1, 0, 0, 0, -1) 0 rfl
    (by decide) rfl

/-! ### C6: footprint degradation on absent inputs -/

/-- C6 (amended): get_footprint returns the empty string, raising
nothing, whenever the geotransform is absent or the projection is
absent or empty.  (The original claim also asserted the empty string
for a non-empty unparseable CRS; there the code instead lets the
coordinate-transformation failure propagate.) -/
theorem footprint_absent_empty (env : GdalEnv) (ds : Dataset) (t : ℕ)
    (log : CallLog) (h : ds.geotransform = none ∨ ds.projection = "") :
    (get_footprint env ds t log).1 = .ok "" := by
  rcases h with h | h
  · unfold get_footprint
    rw [h]
  · unfold get_footprint
    cases hgt : ds.geotransform with
    | none => rfl
    | some gt =>
        dsimp only
        rw [if_pos h]

/-- C6 counterexample: a present geotransform with a non-empty but
unparseable projection makes get_footprint propagate the coordinate
transformation failure instead of returning the empty string. -/
theorem footprint_unparseable_counterexample :
    (get_footprint envDemo dsBad 4326 {}).1 =
      .error "coordinate transformation creation failed"
    ∧ (get_footprint envDemo dsBad 4326 {}).1 ≠ .ok "" := by
  constructor
  · decide
  · decide

/-- Closed instance: the dataset with no geotransform yields the empty
footprint. -/
theorem footprint_absent_empty_witness :
    (get_footprint envDemo dsNoGt 4326 {}).1 = .ok "" :=
  footprint_absent_empty envDemo dsNoGt 4326 {} (Or.inl rfl)

/-! ### C9: format_bytes lemmas -/

theorem qadd_eq (a b : ℚ) : qadd a b = a + b := by
  unfold qadd
  rw [Rat.mkRat_eq_div]
  have ha : ((a.den : ℚ)) ≠ 0 := by
    exact_mod_cast a.den_nz
  have hb : ((b.den : ℚ)) ≠ 0 := by
    exact_mod_cast b.den_nz
  conv_rhs => rw [← Rat.num_div_den a, ← Rat.num_div_den b]
  push_cast
  field_simp

theorem qmul_eq (a b : ℚ) : qmul a b = a * b := by
  unfold qmul
  rw [Rat.mkRat_eq_div]
  have ha : ((a.den : ℚ)) ≠ 0 := by
    exact_mod_cast a.den_nz
  have hb : ((b.den : ℚ)) ≠ 0 := by
    exact_mod_cast b.den_nz
  conv_rhs => rw [← Rat.num_div_den a, ← Rat.num_div_den b]
  push_cast
  field_simp

theorem qdiv1024_eq (a : ℚ) : qdiv1024 a = a / 1024 := by
  unfold qdiv1024
  rw [Rat.mkRat_eq_div]
  have ha : ((a.den : ℚ)) ≠ 0 := by
    exact_mod_cast a.den_nz
  conv_rhs => rw [← Rat.num_div_den a]
  push_cast
  field_simp

theorem sub_floor_div (n : ℤ) (d : ℕ) (hd : 0 < d) :
    ((n : ℚ)) / (d : ℚ) - ((n / (d : ℤ) : ℤ) : ℚ) =
      ((n % (d : ℤ) : ℤ) : ℚ) / (d : ℚ) := by
  have hdq : (0 : ℚ) < (d : ℚ) := by exact_mod_cast hd
  have hnum : (d : ℤ) * (n / (d : ℤ)) + n % (d : ℤ) = n := Int.ediv_add_emod _ _
  have hcast : ((d : ℚ)) * ((n / (d : ℤ) : ℤ) : ℚ) + ((n % (d : ℤ) : ℤ) : ℚ) = (n : ℚ) := by
    exact_mod_cast congrArg (fun z : ℤ => (z : ℚ)) hnum
  field_simp
  linarith

theorem rhe_eq_floor (q : ℚ) : rhe q =
    if q - (⌊q⌋ : ℚ) < 1/2 then ⌊q⌋
    else if 1/2 < q - (⌊q⌋ : ℚ) then ⌊q⌋ + 1
    else if ⌊q⌋ % 2 = 0 then ⌊q⌋ else ⌊q⌋ + 1 := by
  unfold rhe rheND
  have hfl : ⌊q⌋ = q.num / (q.den : ℤ) := Rat.floor_def
  have hdz : (0 : ℤ) < (q.den : ℤ) := by exact_mod_cast q.pos
  have hdq : (0 : ℚ) < (q.den : ℚ) := by exact_mod_cast q.pos
  have hnum : (q.den : ℤ) * (q.num / (q.den : ℤ)) + q.num % (q.den : ℤ) = q.num :=
    Int.ediv_add_emod _ _
  have hfract : q - ((q.num / (q.den : ℤ) : ℤ) : ℚ) =
      ((q.num % (q.den : ℤ) : ℤ) : ℚ) / (q.den : ℚ) := by
    conv_lhs => lhs; rw [← Rat.num_div_den q]
    exact sub_floor_div q.num q.den q.pos
  have c1 : (2 * (q.num % (q.den : ℤ)) < (q.den : ℤ)) ↔
      (q - ((q.num / (q.den : ℤ) : ℤ) : ℚ) < 1/2) := by
    rw [hfract, div_lt_div_iff₀ hdq (by norm_num : (0:ℚ) < 2)]
    constructor
    · intro h
      have h2 : ((2 * (q.num % (q.den : ℤ)) : ℤ) : ℚ) < ((q.den : ℤ) : ℚ) := by
        exact_mod_cast h
      push_cast at h2
      linarith
    · intro h
      have h2 : ((2 * (q.num % (q.den : ℤ)) : ℤ) : ℚ) < ((q.den : ℤ) : ℚ) := by
        push_cast
        linarith
      exact_mod_cast h2
  have c2 : ((q.den : ℤ) < 2 * (q.num % (q.den : ℤ))) ↔
      (1/2 < q - ((q.num / (q.den : ℤ) : ℤ) : ℚ)) := by
    rw [hfract, div_lt_div_iff₀ (by norm_num : (0:ℚ) < 2) hdq]
    constructor
    · intro h
      have h2 : (((q.den : ℤ)) : ℚ) < ((2 * (q.num % (q.den : ℤ)) : ℤ) : ℚ) := by
        exact_mod_cast h
      push_cast at h2
      linarith
    · intro h
      have h2 : (((q.den : ℤ)) : ℚ) < ((2 * (q.num % (q.den : ℤ)) : ℤ) : ℚ) := by
        push_cast
        linarith
      exact_mod_cast h2
  rw [hfl]
  exact if_congr c1 rfl (if_congr c2 rfl rfl)

theorem rhe_bounds (q : ℚ) : ⌊q⌋ ≤ rhe q ∧ rhe q ≤ ⌊q⌋ + 1 := by
  rw [rhe_eq_floor]
  split_ifs <;> omega

theorem rhe_mono {q r : ℚ} (h : q ≤ r) : rhe q ≤ rhe r := by
  rcases lt_or_eq_of_le (Int.floor_le_floor h) with hf | hf
  · have h1 := (rhe_bounds q).2
    have h2 := (rhe_bounds r).1
    omega
  · rw [rhe_eq_floor, rhe_eq_floor, ← hf]
    have hr : q - (⌊q⌋ : ℚ) ≤ r - (⌊q⌋ : ℚ) := by linarith
    split_ifs <;> first | omega | (exfalso; linarith)

theorem rhe_intCast (k : ℤ) : rhe ((k : ℤ) : ℚ) = k := by
  rw [rhe_eq_floor]
  simp

theorem fbGo_val (fuel : ℕ) : ∀ v : ℚ, (fbGo v fuel).1 = v / 1024 ^ (fbGo v fuel).2 := by
  induction fuel with
  | zero => intro v; simp [fbGo]
  | succ f ih =>
      intro v
      unfold fbGo
      split
      · simp
      · dsimp only
        rw [ih (qdiv1024 v), qdiv1024_eq]
        rw [div_div, ← pow_succ']
  
theorem fbGo_le_fuel (fuel : ℕ) : ∀ v : ℚ, (fbGo v fuel).2 ≤ fuel := by
  induction fuel with
  | zero => intro v; simp [fbGo]
  | succ f ih =>
      intro v
      unfold fbGo
      split
      · simp
      · dsimp only
        exact Nat.succ_le_succ (ih _)

theorem fbGo_final_lt (fuel : ℕ) : ∀ v : ℚ, (fbGo v fuel).2 < fuel →
    (fbGo v fuel).1 < 1024 := by
  induction fuel with
  | zero => intro v h; omega
  | succ f ih =>
      intro v h
      unfold fbGo at h ⊢
      by_cases hv : v < 1024
      · simpa [hv] using hv
      · rw [if_neg hv] at h ⊢
        dsimp only at h ⊢
        exact ih _ (by omega)

theorem fbGo_pow_le (fuel : ℕ) : ∀ v : ℚ, 1 ≤ (fbGo v fuel).2 →
    (1024 : ℚ) ^ (fbGo v fuel).2 ≤ v := by
  induction fuel with
  | zero => intro v h; simp [fbGo] at h
  | succ f ih =>
      intro v h
      unfold fbGo at h ⊢
      by_cases hv : v < 1024
      · simp [hv] at h
      · rw [if_neg hv] at h ⊢
        dsimp only at h ⊢
        push_neg at hv
        rcases Nat.eq_zero_or_pos (fbGo (qdiv1024 v) f).2 with h0 | h1
        · rw [h0]
          simpa using hv
        · have hrec := ih (qdiv1024 v) h1
          rw [pow_succ]
          have h2 : qdiv1024 v = v / 1024 := qdiv1024_eq v
          calc (1024:ℚ) ^ (fbGo (qdiv1024 v) f).2 * 1024 ≤ (qdiv1024 v) * 1024 := by
                nlinarith
            _ = v := by rw [h2]; field_simp

theorem fbGo_mono (fuel : ℕ) : ∀ v w : ℚ, v ≤ w →
    (fbGo v fuel).2 ≤ (fbGo w fuel).2 := by
  induction fuel with
  | zero => intro v w h; simp [fbGo]
  | succ f ih =>
      intro v w h
      unfold fbGo
      by_cases hw : w < 1024
      · have hv : v < 1024 := lt_of_le_of_lt h hw
        simp [hv, hw]
      · by_cases hv : v < 1024
        · simp [hv, hw]
        · rw [if_neg hv, if_neg hw]
          dsimp only
          have : qdiv1024 v ≤ qdiv1024 w := by
            rw [qdiv1024_eq, qdiv1024_eq]
            gcongr
          exact Nat.succ_le_succ (ih _ _ this)

theorem displayed_lower (n : ℕ) (h : 1 ≤ (fbGo ((n : ℚ)) 5).2) :
    (1024 : ℚ) ^ (fbGo ((n : ℚ)) 5).2 ≤ displayed n := by
  unfold displayed
  dsimp only
  rw [if_neg (by omega)]
  have hval : (fbGo (n : ℚ) 5).1 = (n : ℚ) / 1024 ^ (fbGo (n : ℚ) 5).2 := fbGo_val 5 _
  have hpow : (1024 : ℚ) ^ (fbGo (n : ℚ) 5).2 ≤ (n : ℚ) := fbGo_pow_le 5 _ h
  have hv1 : (1 : ℚ) ≤ (fbGo (n : ℚ) 5).1 := by
    rw [hval, le_div_iff (by positivity)]
    simpa using hpow
  have hrhe : (100 : ℤ) ≤ rhe (100 * (fbGo (n : ℚ) 5).1) := by
    have h2 := rhe_mono (q := ((100 : ℤ) : ℚ)) (r := 100 * (fbGo (n : ℚ) 5).1)
      (by push_cast; linarith)
    rwa [rhe_intCast] at h2
  have hrheQ : (100 : ℚ) ≤ ((rhe (100 * (fbGo (n : ℚ) 5).1) : ℤ) : ℚ) := by
    exact_mod_cast hrhe
  have hp : (0 : ℚ) < 1024 ^ (fbGo (n : ℚ) 5).2 := by positivity
  nlinarith

theorem displayed_upper (n : ℕ) (h : (fbGo ((n : ℚ)) 5).2 < 5) :
    displayed n ≤ (1024 : ℚ) ^ ((fbGo ((n : ℚ)) 5).2 + 1) := by
  unfold displayed
  dsimp only
  have hval : (fbGo (n : ℚ) 5).1 < 1024 := fbGo_final_lt 5 (n : ℚ) h
  by_cases h0 : (fbGo (n : ℚ) 5).2 = 0
  · rw [if_pos h0, h0]
    have h2 : (fbGo (n : ℚ) 5).1 = (n : ℚ) / 1024 ^ (fbGo (n : ℚ) 5).2 := fbGo_val 5 _
    rw [h0] at h2
    simp only [pow_zero, div_one] at h2
    rw [h2] at hval
    simpa using hval.le
  · rw [if_neg h0]
    have hrhe : rhe (100 * (fbGo (n : ℚ) 5).1) ≤ (102400 : ℤ) := by
      have h2 := rhe_mono (q := 100 * (fbGo (n : ℚ) 5).1) (r := ((102400 : ℤ) : ℚ))
        (by push_cast; linarith)
      rwa [rhe_intCast] at h2
    have hrheQ : ((rhe (100 * (fbGo (n : ℚ) 5).1) : ℤ) : ℚ) ≤ 102400 := by
      exact_mod_cast hrhe
    have hp : (0 : ℚ) < 1024 ^ (fbGo (n : ℚ) 5).2 := by positivity
    rw [pow_succ']
    nlinarith

theorem displayed_mono (m n : ℕ) (h : m ≤ n) : displayed m ≤ displayed n := by
  have hj : (fbGo (m : ℚ) 5).2 ≤ (fbGo (n : ℚ) 5).2 :=
    fbGo_mono 5 _ _ (by exact_mod_cast h)
  rcases eq_or_lt_of_le hj with hje | hjl
  · unfold displayed
    dsimp only
    by_cases h0 : (fbGo (n : ℚ) 5).2 = 0
    · rw [if_pos (by omega), if_pos h0]
      exact_mod_cast h
    · rw [if_neg (by omega), if_neg h0]
      have hvm : (fbGo (m : ℚ) 5).1 = (m : ℚ) / 1024 ^ (fbGo (m : ℚ) 5).2 := fbGo_val 5 _
      have hvn : (fbGo (n : ℚ) 5).1 = (n : ℚ) / 1024 ^ (fbGo (n : ℚ) 5).2 := fbGo_val 5 _
      have hvle : (fbGo (m : ℚ) 5).1 ≤ (fbGo (n : ℚ) 5).1 := by
        rw [hvm, hvn, hje]
        gcongr
      have hr : rhe (100 * (fbGo (m : ℚ) 5).1) ≤ rhe (100 * (fbGo (n : ℚ) 5).1) :=
        rhe_mono (by linarith)
      have hrQ : ((rhe (100 * (fbGo (m : ℚ) 5).1) : ℤ) : ℚ) ≤
          ((rhe (100 * (fbGo (n : ℚ) 5).1) : ℤ) : ℚ) := by exact_mod_cast hr
      rw [hje]
      have hp : (0 : ℚ) < 1024 ^ (fbGo (n : ℚ) 5).2 := by positivity
      nlinarith
  · have h5 : (fbGo (n : ℚ) 5).2 ≤ 5 := fbGo_le_fuel 5 _
    have hup := displayed_upper m (by omega)
    have hlo := displayed_lower n (by omega)
    have hpow : (1024 : ℚ) ^ ((fbGo (m : ℚ) 5).2 + 1) ≤
        (1024 : ℚ) ^ (fbGo (n : ℚ) 5).2 := by
      apply pow_le_pow_right (by norm_num) (by omega)
    linarith

/-- C9: the quantity displayed by format_bytes is monotone in the byte
count, the unit index steps monotonically, and the four fixed points
hold: 0 bytes, 1023 bytes, 1024 bytes and 1048576 bytes render as
"0 B", "1023 B", "1.00 KB" and "1.00 MB". -/
theorem format_bytes_monotone :
    (∀ m n : ℕ, m ≤ n → displayed m ≤ displayed n)
    ∧ (∀ m n : ℕ, m ≤ n → (fbGo ((m : ℚ)) 5).2 ≤ (fbGo ((n : ℚ)) 5).2)
    ∧ format_bytes 0 = "0 B"
    ∧ format_bytes 1023 = "1023 B"
    ∧ format_bytes 1024 = "1.00 KB"
    ∧ format_bytes 1048576 = "1.00 MB" :=
  ⟨displayed_mono,
   fun m n h => fbGo_mono 5 _ _ (by exact_mod_cast h),
   by decide, by decide, by decide, by decide⟩

/-- Closed instance of the monotonicity of the displayed quantity. -/
theorem format_bytes_monotone_witness : displayed 500 ≤ displayed 123456 :=
  format_bytes_monotone.1 500 123456 (by norm_num)
